import Mathlib

/-!
Verification of the C runtime-bug detector's core analysis functions.

The repository's detectors consume parser-extracted data (declarations,
usage/dereference sites, includes, function calls) and emit issue records.
The definitions below are shallow embeddings of the TypeScript functions in
`src/detectors/standalone_ast_variable_detector.ts`, the standalone library
detector, the heuristic engine of `heuristic_test.ts`, and the report filter.
Parser extraction itself (an external collaborator wrapping a C grammar) is
modelled by passing its outputs — site lists — as explicit arguments, exactly
as the detector methods receive them.
-/

namespace CDetector

/-- JS `\w` word-character class: `[A-Za-z0-9_]`. -/
def wordChar (c : Char) : Bool := c.isAlphanum || c == '_'

/-- Whitespace, as used by JS `trim` and `\s` on source-code lines. -/
def isWS (c : Char) : Bool := c.isWhitespace

/-- JS `String.prototype.trim` on a character list. -/
def trimChars (l : List Char) : List Char :=
  ((l.dropWhile isWS).reverse.dropWhile isWS).reverse

/-- String wrapper for `trimChars`. -/
def strTrim (s : String) : String := String.mk (trimChars s.data)

/-- Scan helper for `indexOfFrom`: first index `≥ i` where `needle` occurs. -/
def indexOfFromGo (needle : List Char) : List Char → Nat → Option Nat
  | [], i => if needle.isEmpty then some i else none
  | c :: t, i =>
    if needle.isPrefixOf (c :: t) then some i else indexOfFromGo needle t (i + 1)

/-- JS `String.prototype.indexOf(needle, start)`, with `none` for `-1`. -/
def indexOfFrom (hay needle : List Char) (start : Nat) : Option Nat :=
  indexOfFromGo needle (hay.drop start) start

/-- JS `String.prototype.includes` on character lists. -/
def containsSub (hay needle : List Char) : Bool := (indexOfFrom hay needle 0).isSome

/-- JS `String.prototype.includes` on strings. -/
def strContains (s sub : String) : Bool := containsSub s.data sub.data

/-- Array indexing `sourceLines[row]`, with `""` for an out-of-range row (the
detectors guard with `|| ''` or feed the result to a regex test). -/
def lineAt (sourceLines : List String) (row : Nat) : String := sourceLines.getD row ""

/-- A parser position (0-based row and column), as produced by the AST adapter. -/
structure Pos where
  row : Nat
  column : Nat
deriving DecidableEq

/-- A variable declaration record as consumed by the variable detector. -/
structure VariableDeclaration where
  name : String
  isPointer : Bool
  isInitialized : Bool
  isParameter : Bool
  row : Nat
deriving DecidableEq

/-- An issue record as produced by the AST-path detectors. -/
structure RawIssue where
  file : String
  line : Nat
  column : Nat
  category : String
  message : String
  severity : Nat
  codeLine : String
deriving DecidableEq

/-- The regex `^(=|[\+\-\*\/\%]?=)` of `isAssignmentTarget`: the trimmed text
after the variable starts with `=` (hence also `==`), or with one of
`+ - * / %` immediately followed by `=`. -/
def startsWithAssignOp : List Char → Bool
  | '=' :: _ => true
  | c :: '=' :: _ => ['+', '-', '*', '/', '%'].contains c
  | _ => false

/-- Embedding of `isAssignmentTarget(line, variableName, column)`: find the
name at or after `column`, take the text after it, trim it, and test the
assignment-operator regex. -/
def isAssignmentTarget (line : String) (variableName : String) (column : Nat) : Bool :=
  match indexOfFrom line.data variableName.data column with
  | none => false
  | some varIndex =>
    startsWithAssignOp (trimChars (line.data.drop (varIndex + variableName.data.length)))

/-- One line of the struct-marker test of `isStructField`: the trimmed line
contains `typedef struct` or `struct `. -/
def structMarkerLine (line : String) : Bool :=
  strContains (strTrim line) "typedef struct" || strContains (strTrim line) "struct "

/-- Embedding of `isStructField(sourceLines, lineNumber)`: some line with index
in `[max(0, lineNumber-5), lineNumber)` carries a struct marker. -/
def isStructField (sourceLines : List String) (lineNumber : Nat) : Bool :=
  (List.range lineNumber).any fun i =>
    decide (lineNumber - 5 ≤ i) && structMarkerLine (lineAt sourceLines i)

/-- The Uninitialized issue pushed by `checkVariableUsage` for a usage site. -/
def mkUninitIssue (filePath : String) (v : VariableDeclaration) (sourceLines : List String)
    (u : Pos) : RawIssue :=
  { file := filePath, line := u.row + 1, column := u.column, category := "Uninitialized",
    message := "变量 '" ++ v.name ++ "' 在初始化前被使用", severity := 1,
    codeLine := lineAt sourceLines u.row }

/-- The wild-pointer issue pushed by the dereference loop of
`checkVariableUsage`; note its `category` field is the string `"NullPointer"`. -/
def mkWildIssue (filePath : String) (v : VariableDeclaration) (sourceLines : List String)
    (d : Pos) : RawIssue :=
  { file := filePath, line := d.row + 1, column := d.column, category := "NullPointer",
    message := "潜在野指针解引用：指针 '" ++ v.name ++ "' 未初始化", severity := 0,
    codeLine := lineAt sourceLines d.row }

/-- The usage loop of `checkVariableUsage`: skip the declaration row, mark the
variable initialized on an assignment target, report every other occurrence.
Returns the issues in source order together with the final flag value. -/
def scanUsages (v : VariableDeclaration) (sourceLines : List String) (filePath : String) :
    List Pos → Bool → List RawIssue × Bool
  | [], isInit => ([], isInit)
  | u :: rest, isInit =>
    if u.row = v.row then scanUsages v sourceLines filePath rest isInit
    else if isAssignmentTarget (lineAt sourceLines u.row) v.name u.column then
      scanUsages v sourceLines filePath rest true
    else
      let r := scanUsages v sourceLines filePath rest isInit
      (mkUninitIssue filePath v sourceLines u :: r.1, r.2)

/-- Embedding of `checkVariableUsage`: guards on the initialized/parameter
flags and the struct-field heuristic, then the usage scan, then the
dereference re-check against the end-of-scan flag value. -/
def checkVariableUsage (v : VariableDeclaration) (usages dereferences : List Pos)
    (sourceLines : List String) (filePath : String) : List RawIssue :=
  if v.isInitialized || v.isParameter then []
  else if isStructField sourceLines v.row then []
  else
    let scanned := scanUsages v sourceLines filePath usages v.isInitialized
    scanned.1 ++ dereferences.filterMap fun d =>
      if d.row = v.row then none
      else if v.isPointer && !scanned.2 then some (mkWildIssue filePath v sourceLines d)
      else none

/-- Word-boundary test `\b` after `NULL`/`0`: end of text or a non-word char. -/
def nullBoundaryOk : List Char → Bool
  | [] => true
  | c :: _ => !wordChar c

/-- After a `=`: skip whitespace, then `NULL\b` or `0\b`. -/
def nullAfterEq (rest : List Char) : Bool :=
  let r := rest.dropWhile isWS
  (['N', 'U', 'L', 'L'].isPrefixOf r && nullBoundaryOk (r.drop 4)) ||
  (['0'].isPrefixOf r && nullBoundaryOk (r.drop 1))

/-- Scan for the regex `=\s*(NULL|0)\b` anywhere in the line. -/
def isNullInitializedChars : List Char → Bool
  | [] => false
  | '=' :: rest => nullAfterEq rest || isNullInitializedChars rest
  | _ :: rest => isNullInitializedChars rest

/-- Embedding of `isNullInitialized(line)`: the line matches `=\s*(NULL|0)\b`. -/
def isNullInitialized (line : String) : Bool := isNullInitializedChars line.data

/-- The NullPointer issue pushed by `checkNullPointerDereference`. -/
def mkNullPointerIssue (filePath : String) (sourceLines : List String)
    (p : VariableDeclaration) (d : Pos) : RawIssue :=
  { file := filePath, line := d.row + 1, column := d.column, category := "NullPointer",
    message := "潜在空指针解引用：指针 '" ++ p.name ++ "' 可能为 NULL", severity := 0,
    codeLine := lineAt sourceLines d.row }

/-- Embedding of `checkNullPointerDereference`: filter the declarations to the
NULL/0-initialized pointers, then report each dereference of such a name on a
strictly later row. `derefsOf` stands for `parser.findPointerDereferences`. -/
def checkNullPointerDereference (declarations : List VariableDeclaration)
    (derefsOf : String → List Pos) (sourceLines : List String) (filePath : String) :
    List RawIssue :=
  let nullPointers := declarations.filter fun d =>
    d.isPointer && isNullInitialized (lineAt sourceLines d.row)
  nullPointers.flatMap fun p =>
    (derefsOf p.name).filterMap fun d =>
      if p.row < d.row then some (mkNullPointerIssue filePath sourceLines p d) else none

/-- A function-call record as consumed by the library detector. -/
structure FunctionCall where
  name : String
  row : Nat
  column : Nat
deriving DecidableEq

/-- An include-directive record as consumed by the library detector. -/
structure IncludeDirective where
  headerName : String
  isSystemHeader : Bool
  row : Nat
  column : Nat
deriving DecidableEq

/-- The static `STANDARD_LIBRARY_FUNCTIONS` table mapping C standard-library
function names to the headers that may satisfy them. -/
def STANDARD_LIBRARY_FUNCTIONS : List (String × List String) :=
  [("printf", ["stdio.h"]), ("scanf", ["stdio.h"]), ("fprintf", ["stdio.h"]),
   ("fscanf", ["stdio.h"]), ("sprintf", ["stdio.h"]), ("sscanf", ["stdio.h"]),
   ("fopen", ["stdio.h"]), ("fclose", ["stdio.h"]), ("fread", ["stdio.h"]),
   ("fwrite", ["stdio.h"]), ("fgets", ["stdio.h"]), ("fputs", ["stdio.h"]),
   ("getchar", ["stdio.h"]), ("putchar", ["stdio.h"]), ("fgetc", ["stdio.h"]),
   ("fputc", ["stdio.h"]), ("fseek", ["stdio.h"]), ("ftell", ["stdio.h"]),
   ("rewind", ["stdio.h"]), ("feof", ["stdio.h"]), ("ferror", ["stdio.h"]),
   ("perror", ["stdio.h"]),
   ("malloc", ["stdlib.h"]), ("calloc", ["stdlib.h"]), ("realloc", ["stdlib.h"]),
   ("free", ["stdlib.h"]), ("exit", ["stdlib.h"]), ("abort", ["stdlib.h"]),
   ("atexit", ["stdlib.h"]), ("atoi", ["stdlib.h"]), ("atof", ["stdlib.h"]),
   ("atol", ["stdlib.h"]), ("strtol", ["stdlib.h"]), ("strtod", ["stdlib.h"]),
   ("rand", ["stdlib.h"]), ("srand", ["stdlib.h"]), ("system", ["stdlib.h"]),
   ("getenv", ["stdlib.h"]), ("qsort", ["stdlib.h"]), ("bsearch", ["stdlib.h"]),
   ("abs", ["stdlib.h"]), ("labs", ["stdlib.h"]), ("div", ["stdlib.h"]),
   ("ldiv", ["stdlib.h"]),
   ("strlen", ["string.h"]), ("strcpy", ["string.h"]), ("strncpy", ["string.h"]),
   ("strcat", ["string.h"]), ("strncat", ["string.h"]), ("strcmp", ["string.h"]),
   ("strncmp", ["string.h"]), ("strchr", ["string.h"]), ("strrchr", ["string.h"]),
   ("strstr", ["string.h"]), ("strtok", ["string.h"]), ("memcpy", ["string.h"]),
   ("memmove", ["string.h"]), ("memcmp", ["string.h"]), ("memchr", ["string.h"]),
   ("memset", ["string.h"]),
   ("sin", ["math.h"]), ("cos", ["math.h"]), ("tan", ["math.h"]),
   ("asin", ["math.h"]), ("acos", ["math.h"]), ("atan", ["math.h"]),
   ("atan2", ["math.h"]), ("sinh", ["math.h"]), ("cosh", ["math.h"]),
   ("tanh", ["math.h"]), ("exp", ["math.h"]), ("log", ["math.h"]),
   ("log10", ["math.h"]), ("pow", ["math.h"]), ("sqrt", ["math.h"]),
   ("ceil", ["math.h"]), ("floor", ["math.h"]), ("fabs", ["math.h"]),
   ("ldexp", ["math.h"]), ("frexp", ["math.h"]), ("modf", ["math.h"]),
   ("fmod", ["math.h"]),
   ("isalpha", ["ctype.h"]), ("isdigit", ["ctype.h"]), ("isalnum", ["ctype.h"]),
   ("isspace", ["ctype.h"]), ("islower", ["ctype.h"]), ("isupper", ["ctype.h"]),
   ("isprint", ["ctype.h"]), ("iscntrl", ["ctype.h"]), ("ispunct", ["ctype.h"]),
   ("isxdigit", ["ctype.h"]), ("tolower", ["ctype.h"]), ("toupper", ["ctype.h"]),
   ("time", ["time.h"]), ("clock", ["time.h"]), ("ctime", ["time.h"]),
   ("asctime", ["time.h"]), ("localtime", ["time.h"]), ("gmtime", ["time.h"]),
   ("mktime", ["time.h"]), ("strftime", ["time.h"]), ("difftime", ["time.h"]),
   ("assert", ["assert.h"]),
   ("va_start", ["stdarg.h"]), ("va_arg", ["stdarg.h"]), ("va_end", ["stdarg.h"]),
   ("va_copy", ["stdarg.h"]),
   ("setjmp", ["setjmp.h"]), ("longjmp", ["setjmp.h"]),
   ("signal", ["signal.h"]), ("raise", ["signal.h"]),
   ("setlocale", ["locale.h"]), ("localeconv", ["locale.h"])]

/-- Object-property lookup `STANDARD_LIBRARY_FUNCTIONS[call.name]`. -/
def lookupStdFunction (name : String) : Option (List String) :=
  (STANDARD_LIBRARY_FUNCTIONS.find? fun p => p.1 == name).map Prod.snd

/-- The Header issue pushed by the library detector's `analyzeFile`, with the
acceptable headers joined by `" 或 "`. -/
def mkHeaderIssue (filePath : String) (sourceLines : List String) (call : FunctionCall)
    (required : List String) : RawIssue :=
  { file := filePath, line := call.row + 1, column := call.column, category := "Header",
    message := "函数 '" ++ call.name ++ "' 需要包含头文件: " ++ String.intercalate " 或 " required,
    severity := 1, codeLine := lineAt sourceLines call.row }

/-- Embedding of `StandaloneASTLibraryDetector.analyzeFile`: for each call whose
callee is in the table, emit a Header issue unless some acceptable header
appears among the include directives' bare header names. -/
def libraryAnalyzeFile (filePath : String) (sourceLines : List String)
    (includes : List IncludeDirective) (functionCalls : List FunctionCall) : List RawIssue :=
  let includedHeaders := includes.map (·.headerName)
  functionCalls.filterMap fun call =>
    match lookupStdFunction call.name with
    | none => none
    | some requiredHeaders =>
      if requiredHeaders.any (fun h => includedHeaders.contains h) then none
      else some (mkHeaderIssue filePath sourceLines call requiredHeaders)

/-- The fixed whitelist of 24 standard headers of `checkHeaderSpelling`, in its
enumeration (insertion) order. -/
def standardHeaders : List String :=
  ["stdio.h", "stdlib.h", "string.h", "math.h", "ctype.h",
   "time.h", "assert.h", "limits.h", "float.h", "stdarg.h",
   "setjmp.h", "signal.h", "errno.h", "locale.h", "stddef.h",
   "stdint.h", "stdbool.h", "inttypes.h", "wchar.h", "wctype.h",
   "iso646.h", "complex.h", "fenv.h", "tgmath.h"]

/-- Inner cells of one DP row of `levenshteinDistance`: `pd` is the diagonal
predecessor, `left` the cell just computed, and the head of the remaining
previous row the cell above. -/
def levStepGo (c : Char) : List Char → List Nat → Nat → List Nat
  | [], _, _ => []
  | _ :: _, [], _ => []
  | a :: s1, pd :: prest, left =>
    let above := prest.headD 0
    let cur := if a == c then pd else Nat.min pd (Nat.min left above) + 1
    cur :: levStepGo c s1 prest cur

/-- One DP row of `levenshteinDistance` for the next character `c` of `str2`. -/
def levStep (c : Char) (s1 : List Char) (prev : List Nat) : List Nat :=
  let first := prev.headD 0 + 1
  first :: levStepGo c s1 prev first

/-- Embedding of `levenshteinDistance(str1, str2)` by its row-by-row dynamic
program: substitutions, insertions, and deletions each cost 1. -/
def levenshteinDistance (str1 str2 : List Char) : Nat :=
  (str2.foldl (fun row c => levStep c str1 row) (List.range (str1.length + 1))).getLastD 0

/-- JS `String.prototype.toLowerCase` on a character list (header names are
ASCII, where the two functions agree). -/
def lowerChars (l : List Char) : List Char := l.map Char.toLower

/-- Comparison `distance < bestDistance` where `none` encodes `Infinity`. -/
def ltInf (d : Nat) : Option Nat → Bool
  | none => true
  | some b => d < b

/-- The accumulator loop of `suggestCorrectHeader`: keep the first strictly
better candidate with distance at most 2. -/
def suggestLoop (lowerHeader : List Char) :
    List String → Option String × Option Nat → Option String × Option Nat
  | [], acc => acc
  | standard :: rest, (best, bestD) =>
    let distance := levenshteinDistance lowerHeader (lowerChars standard.data)
    if ltInf distance bestD && decide (distance ≤ 2) then
      suggestLoop lowerHeader rest (some standard, some distance)
    else
      suggestLoop lowerHeader rest (best, bestD)

/-- Embedding of `suggestCorrectHeader(headerName, standardHeaders)`: distances
are computed between the lowercased header name and the lowercased entries. -/
def suggestCorrectHeader (headerName : String) : Option String :=
  (suggestLoop (lowerChars headerName.data) standardHeaders (none, none)).1

/-- The HeaderSpelling issue pushed by `checkHeaderSpelling`, whose message
carries the suggestion when one exists. -/
def mkSpellingIssue (filePath : String) (sourceLines : List String)
    (inc : IncludeDirective) : RawIssue :=
  let message :=
    match suggestCorrectHeader inc.headerName with
    | some s => "可疑的头文件名: " ++ inc.headerName ++ "，您是否想要 " ++ s ++ "？"
    | none => "可疑的头文件名: " ++ inc.headerName
  { file := filePath, line := inc.row + 1, column := inc.column, category := "HeaderSpelling",
    message := message, severity := 2, codeLine := lineAt sourceLines inc.row }

/-- Embedding of `checkHeaderSpelling`: only angle-bracket (system) includes
whose header name is absent from the whitelist produce an issue. -/
def checkHeaderSpelling (filePath : String) (sourceLines : List String)
    (includes : List IncludeDirective) : List RawIssue :=
  includes.filterMap fun inc =>
    if inc.isSystemHeader && !(standardHeaders.contains inc.headerName) then
      some (mkSpellingIssue filePath sourceLines inc)
    else none

/-- Distance used by the spec's description of the suggestion: Levenshtein
distance between the lowercased header name and a lowercased whitelist entry. -/
def lowerDistance (headerName w : String) : Nat :=
  levenshteinDistance (lowerChars headerName.data) (lowerChars w.data)

/-- Minimum of a list of naturals, `none` on the empty list. -/
def listMin : List Nat → Option Nat
  | [] => none
  | a :: l => some (match listMin l with | none => a | some m => min a m)

/-- Modelled from the spec's words (for comparison with `suggestCorrectHeader`):
the first whitelist entry at minimum lowercased distance when that minimum is
at most 2, and no suggestion otherwise. -/
def specSuggestion (headerName : String) (whitelist : List String) : Option String :=
  match listMin (whitelist.map (lowerDistance headerName)) with
  | none => none
  | some m => if m ≤ 2 then whitelist.find? (fun w => lowerDistance headerName w == m) else none

/-- A symbol-table entry of the heuristic engine. -/
structure VariableInfo where
  name : String
  typeName : String
  isPointer : Bool
  isInitialized : Bool
  firstUseLine : Option Nat
deriving DecidableEq

/-- An issue record of the heuristic engine and of the report printer. -/
structure HIssue where
  file : String
  line : Nat
  category : String
  message : String
  codeLine : String
deriving DecidableEq

/-- Tail test of the regex of `looksAssignmentTo`: `[-+*/]?=` right after the
optional whitespace (note: unlike `isAssignmentTarget`, no `%`). -/
def looksAssignTail : List Char → Bool
  | '=' :: _ => true
  | c :: '=' :: _ => ['-', '+', '*', '/'].contains c
  | _ => false

/-- Position scan of `looksAssignmentTo`'s regex
`(^|[^=<>!])name\s*([-+*/]?=)`: `prevOk` records whether the position is the
line start or preceded by a character outside `=<>!`. -/
def looksAssignmentToGo (name : List Char) : List Char → Bool → Bool
  | [], _ => false
  | c :: t, prevOk =>
    (prevOk && name.isPrefixOf (c :: t) &&
      looksAssignTail (((c :: t).drop name.length).dropWhile isWS)) ||
    looksAssignmentToGo name t (!(['=', '<', '>', '!'].contains c))

/-- Embedding of the heuristic engine's `looksAssignmentTo(line, name)`. -/
def looksAssignmentTo (line name : String) : Bool :=
  looksAssignmentToGo name.data line.data true

/-- Embedding of `formatSpecCount`: count `%` conversion specifiers, with each
`%%` pair skipped as a literal percent. -/
def formatSpecCountChars : List Char → Nat
  | [] => 0
  | '%' :: '%' :: rest => formatSpecCountChars rest
  | '%' :: rest => 1 + formatSpecCountChars rest
  | _ :: rest => formatSpecCountChars rest

/-- String wrapper for `formatSpecCountChars`. -/
def formatSpecCount (fmt : String) : Nat := formatSpecCountChars fmt.data

/-- First index of a single character, as in JS `indexOf`. -/
def indexOfChar (l : List Char) (c : Char) : Option Nat := indexOfFrom l [c] 0

/-- Last index of a single character, as in JS `lastIndexOf`. -/
def lastIndexOfChar (l : List Char) (c : Char) : Option Nat :=
  match indexOfChar l.reverse c with
  | none => none
  | some i => some (l.length - 1 - i)

/-- The comma-splitting loop of `getArgsFromCall`, tracking parenthesis depth
and string-literal state; `buf` is kept reversed. -/
def splitArgsGo : List Char → Nat → Bool → Char → List Char → List String → List String
  | [], _, _, _, buf, parts =>
    if (trimChars buf.reverse).isEmpty then parts.reverse
    else parts.reverse ++ [String.mk (trimChars buf.reverse)]
  | c :: rest, depth, inStr, q, buf, parts =>
    if inStr then
      splitArgsGo rest depth (!(c == q)) q (c :: buf) parts
    else if c == '"' || c == '\'' then
      splitArgsGo rest depth true c (c :: buf) parts
    else if c == '(' then
      splitArgsGo rest (depth + 1) false q (c :: buf) parts
    else if c == ')' then
      splitArgsGo rest (depth - 1) false q (c :: buf) parts
    else if c == ',' && depth == 0 then
      splitArgsGo rest depth false q [] (String.mk (trimChars buf.reverse) :: parts)
    else
      splitArgsGo rest depth false q (c :: buf) parts

/-- Embedding of `getArgsFromCall(line)`: the text between the first `(` and
the last `)`, split on commas at nesting depth 0 outside string literals. -/
def getArgsFromCall (line : String) : List String :=
  match indexOfChar line.data '(', lastIndexOfChar line.data ')' with
  | some lp, some rp =>
    if rp ≤ lp then []
    else splitArgsGo ((line.data.drop (lp + 1)).take (rp - (lp + 1))) 0 false ' ' [] []
  | _, _ => []

/-- Test `\s*\(` after a candidate callee name. -/
def wsThenLParen (l : List Char) : Bool :=
  match l.dropWhile isWS with
  | '(' :: _ => true
  | _ => false

/-- Position scan for `\b(name₁|name₂|…)\s*\(`: `prevNonWord` records whether
the position is the line start or preceded by a non-word character. -/
def hasCallRegexGo (names : List (List Char)) : List Char → Bool → Bool
  | [], _ => false
  | c :: t, prevNonWord =>
    (prevNonWord &&
      names.any fun n => n.isPrefixOf (c :: t) && wsThenLParen ((c :: t).drop n.length)) ||
    hasCallRegexGo names t (!wordChar c)

/-- The guard regex `\b(printf|scanf)\s*\(` of the format check. -/
def hasPrintfScanfCall (line : String) : Bool :=
  hasCallRegexGo ["printf".data, "scanf".data] line.data true

/-- The regex `\bscanf\s*\(` selecting the scanf flavour of the messages. -/
def hasScanfCall (line : String) : Bool :=
  hasCallRegexGo ["scanf".data] line.data true

/-- End test `[\s\)]*$` after the closing quote of the format string. -/
def fmtCloseOk (l : List Char) : Bool := l.all fun c => isWS c || c == ')'

/-- Lazy search for the closing quote of `"([\s\S]*?)"[\s\)]*$`: the capture
ends at the first quote whose remainder is all whitespace or `)`. -/
def fmtFindClose : List Char → Option (List Char)
  | [] => none
  | '"' :: tail =>
    if fmtCloseOk tail then some []
    else (fmtFindClose tail).map fun cap => '"' :: cap
  | c :: tail => (fmtFindClose tail).map fun cap => c :: cap

/-- The format-string matcher `^[\s\(]*"([\s\S]*?)"[\s\)]*$` applied to the
first call argument; returns the captured format-string body. -/
def fmtCapture (s : List Char) : Option (List Char) :=
  match s.dropWhile (fun c => isWS c || c == '(') with
  | '"' :: rest => fmtFindClose rest
  | _ => none

/-- Strip one leading `&`, as in `expr.trim().replace(/^&/, '')`. -/
def dropLeadingAmp : List Char → List Char
  | '&' :: t => t
  | l => l

/-- First identifier `[a-zA-Z_][\w]*` anywhere in the text. -/
def firstIdent : List Char → Option (List Char)
  | [] => none
  | c :: t =>
    if c.isAlpha || c == '_' then some (c :: t.takeWhile wordChar) else firstIdent t

/-- Embedding of `getNameFromExpr(expr)`; `""` when no identifier occurs. -/
def getNameFromExpr (expr : String) : String :=
  match firstIdent (dropLeadingAmp (trimChars expr.data)) with
  | some ident => String.mk ident
  | none => ""

/-- Test `expr.trim().startsWith('&')`. -/
def trimStartsWithAmp (expr : String) : Bool :=
  match trimChars expr.data with
  | '&' :: _ => true
  | _ => false

/-- Message of a too-few-arguments Format issue. -/
def fmtMsgFew (isScanf : Bool) : String :=
  (if isScanf then "scanf" else "printf") ++ " 参数少于格式化占位数"

/-- Message of a too-many-arguments Format issue. -/
def fmtMsgMany (isScanf : Bool) : String :=
  (if isScanf then "scanf" else "printf") ++ " 参数多于格式化占位数"

/-- Message of the scanf take-the-address convention issue. -/
def ampMsg : String := "scanf 实参建议传地址（使用 &var）"

/-- The scanf address-of convention loop over the non-format arguments; an
argument passes when it has no identifier, starts with `&`, or names a `char`
variable. `getVar` stands for the engine's scope lookup. -/
def scanfAmpIssues (filePath raw : String) (lineIdx : Nat)
    (getVar : String → Option VariableInfo) (args : List String) : List HIssue :=
  (args.drop 1).filterMap fun expr =>
    let name := getNameFromExpr expr
    if name == "" then none
    else if trimStartsWithAmp expr then none
    else
      match getVar name with
      | some v =>
        if v.typeName == "char" then none
        else some ⟨filePath, lineIdx + 1, "Format", ampMsg, raw⟩
      | none => some ⟨filePath, lineIdx + 1, "Format", ampMsg, raw⟩

/-- Embedding of the printf/scanf format check of `analyzeDirHeuristic` for one
processed line (`raw` is the original line, `lineIdx` the 0-based index):
count specifiers in the format string, compare with the supplied argument
count, then apply the scanf address-of convention. -/
def formatCheckLine (filePath raw line : String) (lineIdx : Nat)
    (getVar : String → Option VariableInfo) : List HIssue :=
  if hasPrintfScanfCall line then
    let isScanf := hasScanfCall line
    let args := getArgsFromCall line
    if 1 ≤ args.length then
      let specCount :=
        match fmtCapture (args.headD "").data with
        | some cap => formatSpecCountChars cap
        | none => 0
      let provided := args.length - 1
      (if provided < specCount then
        [⟨filePath, lineIdx + 1, "Format", fmtMsgFew isScanf, raw⟩] else []) ++
      (if specCount < provided then
        [⟨filePath, lineIdx + 1, "Format", fmtMsgMany isScanf, raw⟩] else []) ++
      (if isScanf then scanfAmpIssues filePath raw lineIdx getVar args else [])
    else []
  else []

/-- The specifier count used by `formatCheckLine`: the count over the captured
format-string body of the first call argument, or 0 when nothing matches. -/
def fmtSpecOfLine (line : String) : Nat :=
  match fmtCapture ((getArgsFromCall line).headD "").data with
  | some cap => formatSpecCountChars cap
  | none => 0

/-- Embedding of the filter inside `printIssues`: drop issues of any file path
containing `avl_tree.c` located at line 7, 8 or 16; keep everything else in
order. -/
def filterKnownFalsePositives (issues : List HIssue) : List HIssue :=
  issues.filter fun issue =>
    !(strContains issue.file "avl_tree.c" &&
      (issue.line == 7 || issue.line == 8 || issue.line == 16))

end CDetector

open CDetector

theorem list_filterMap_dite {α β : Type} (l : List α) (q : α → Prop) [DecidablePred q]
    (g : α → β) :
    (l.filterMap fun a => if q a then some (g a) else none) =
      (l.filter fun a => decide (q a)).map g := by
  induction l with
  | nil => rfl
  | cons a t ih => by_cases h : q a <;> simp [h, ih]

theorem list_filterMap_skip {α β : Type} (l : List α) (q : α → Prop) [DecidablePred q]
    (g : α → β) :
    (l.filterMap fun a => if q a then none else some (g a)) =
      (l.filter fun a => !decide (q a)).map g := by
  induction l with
  | nil => rfl
  | cons a t ih => by_cases h : q a <;> simp [h, ih]

theorem list_filterMap_bguard {α β : Type} (l : List α) (q : α → Bool) (g : α → β) :
    (l.filterMap fun a => if q a then some (g a) else none) = (l.filter q).map g := by
  induction l with
  | nil => rfl
  | cons a t ih => by_cases h : q a <;> simp [h, ih]

theorem scanUsages_fst (v : VariableDeclaration) (sourceLines : List String) (fp : String) :
    ∀ (us : List Pos) (init : Bool),
      (scanUsages v sourceLines fp us init).1 =
        (us.filter fun u => !decide (u.row = v.row) &&
          !isAssignmentTarget (lineAt sourceLines u.row) v.name u.column).map
          (mkUninitIssue fp v sourceLines) := by
  intro us
  induction us with
  | nil => intro _; rfl
  | cons u rest ih =>
    intro init
    by_cases h1 : u.row = v.row
    · simp only [scanUsages, if_pos h1, ih]
      rw [List.filter_cons_of_neg]
      simp [h1]
    · by_cases h2 : isAssignmentTarget (lineAt sourceLines u.row) v.name u.column = true
      · simp only [scanUsages, if_neg h1, if_pos h2, ih]
        rw [List.filter_cons_of_neg]
        simp [h1, h2]
      · simp only [scanUsages, if_neg h1, if_neg h2, ih]
        rw [List.filter_cons_of_pos, List.map_cons]
        simp [h1, h2]

theorem scanUsages_snd (v : VariableDeclaration) (sourceLines : List String) (fp : String) :
    ∀ (us : List Pos) (init : Bool),
      (scanUsages v sourceLines fp us init).2 =
        (init || us.any fun u => !decide (u.row = v.row) &&
          isAssignmentTarget (lineAt sourceLines u.row) v.name u.column) := by
  intro us
  induction us with
  | nil => intro init; simp [scanUsages]
  | cons u rest ih =>
    intro init
    by_cases h1 : u.row = v.row
    · simp only [scanUsages, if_pos h1, ih]
      simp [h1]
    · by_cases h2 : isAssignmentTarget (lineAt sourceLines u.row) v.name u.column = true
      · simp only [scanUsages, if_neg h1, if_pos h2, ih]
        simp [h1, h2]
      · simp only [scanUsages, if_neg h1, if_neg h2, ih]
        simp [h1, h2]

/-- C1: for a non-initialized, non-parameter, non-struct-field declaration, the
usage scan reports exactly the non-write occurrences away from the declaration
row, in source order — independent of the `isInitialized` flag updates made by
earlier writes, which are never re-consulted per occurrence. -/
theorem C1_uninit_scan_reports_every_nonwrite
    (v : VariableDeclaration) (usages dereferences : List Pos)
    (sourceLines : List String) (filePath : String)
    (hInit : v.isInitialized = false) (hParam : v.isParameter = false)
    (hStruct : isStructField sourceLines v.row = false) :
    (checkVariableUsage v usages dereferences sourceLines filePath).filter
        (fun i => i.category == "Uninitialized") =
      (usages.filter fun u => !decide (u.row = v.row) &&
        !isAssignmentTarget (lineAt sourceLines u.row) v.name u.column).map
        (mkUninitIssue filePath v sourceLines) := by
  unfold checkVariableUsage
  rw [hInit, hParam, hStruct]
  simp only [Bool.or_self, Bool.false_eq_true, if_false]
  rw [List.filter_append, scanUsages_fst]
  have h1 : ((usages.filter fun u => !decide (u.row = v.row) &&
      !isAssignmentTarget (lineAt sourceLines u.row) v.name u.column).map
      (mkUninitIssue filePath v sourceLines)).filter
      (fun i => i.category == "Uninitialized") =
      (usages.filter fun u => !decide (u.row = v.row) &&
      !isAssignmentTarget (lineAt sourceLines u.row) v.name u.column).map
      (mkUninitIssue filePath v sourceLines) := by
    apply List.filter_eq_self.mpr
    intro a ha
    obtain ⟨u, _, rfl⟩ := List.mem_map.mp ha
    rfl
  have h2 : ((dereferences.filterMap fun d =>
      if d.row = v.row then none
      else if v.isPointer && !(scanUsages v sourceLines filePath usages false).2 then
        some (mkWildIssue filePath v sourceLines d)
      else none).filter (fun i => i.category == "Uninitialized")) = [] := by
    apply List.filter_eq_nil_iff.mpr
    intro a ha
    obtain ⟨d, _, heq⟩ := List.mem_filterMap.mp ha
    split at heq
    · exact absurd heq (by simp)
    · split at heq
      · cases heq
        simp [mkWildIssue]
      · exact absurd heq (by simp)
  rw [h1, h2, List.append_nil]

/-- C1 witness: a read at line 2, a write at line 3, then a read at line 4; the
read after the write is still reported. -/
theorem C1_witness :
    (checkVariableUsage ⟨"x", false, false, false, 0⟩ [⟨1, 4⟩, ⟨2, 0⟩, ⟨3, 4⟩] []
        ["int x;", "y = x;", "x = 1;", "y = x;"] "a.c").filter
        (fun i => i.category == "Uninitialized") =
      [mkUninitIssue "a.c" ⟨"x", false, false, false, 0⟩
          ["int x;", "y = x;", "x = 1;", "y = x;"] ⟨1, 4⟩,
       mkUninitIssue "a.c" ⟨"x", false, false, false, 0⟩
          ["int x;", "y = x;", "x = 1;", "y = x;"] ⟨3, 4⟩] := by
  have h := C1_uninit_scan_reports_every_nonwrite ⟨"x", false, false, false, 0⟩
    [⟨1, 4⟩, ⟨2, 0⟩, ⟨3, 4⟩] [] ["int x;", "y = x;", "x = 1;", "y = x;"] "a.c"
    rfl rfl (by decide)
  exact h.trans (by decide)

/-- C2: a pointer declaration whose line matches `=\s*(NULL|0)\b` yields exactly
one NullPointer issue per dereference on a strictly later row, and none for
dereferences at or before the declaration row, with no flow sensitivity. -/
theorem C2_nullptr_flags_every_later_deref
    (p : VariableDeclaration) (derefsOf : String → List Pos)
    (sourceLines : List String) (filePath : String)
    (hPtr : p.isPointer = true)
    (hNull : isNullInitialized (lineAt sourceLines p.row) = true) :
    checkNullPointerDereference [p] derefsOf sourceLines filePath =
      ((derefsOf p.name).filter fun d => decide (p.row < d.row)).map
        (mkNullPointerIssue filePath sourceLines p) := by
  unfold checkNullPointerDereference
  simp only [List.filter_cons, hPtr, hNull, Bool.and_self, List.filter_nil, if_true]
  simp [list_filterMap_dite]

/-- C2 witness: dereferences at rows 1 and 0 around a NULL-initialized pointer
declared at row 0; only the strictly later one is reported. -/
theorem C2_witness :
    checkNullPointerDereference [⟨"p", true, true, false, 0⟩]
        (fun _ => [⟨1, 0⟩, ⟨0, 1⟩]) ["int *p = NULL;", "*p = 5;"] "b.c" =
      [mkNullPointerIssue "b.c" ["int *p = NULL;", "*p = 5;"]
        ⟨"p", true, true, false, 0⟩ ⟨1, 0⟩] := by
  have h := C2_nullptr_flags_every_later_deref ⟨"p", true, true, false, 0⟩
    (fun _ => [⟨1, 0⟩, ⟨0, 1⟩]) ["int *p = NULL;", "*p = 5;"] "b.c" rfl (by decide)
  exact h.trans (by decide)

theorem list_filterMap_const_none {α β : Type} (l : List α) :
    (l.filterMap fun _ => (none : Option β)) = [] := by
  induction l with
  | nil => rfl
  | cons a t ih => simp [ih]

/-- C3 counterexample: with the next non-whitespace token being the comparison
operator `==`, both the AST-path classifier and the heuristic classifier still
classify the occurrence as a write. -/
theorem C3_counterexample :
    isAssignmentTarget "x == 1" "x" 0 = true ∧ looksAssignmentTo "x == 1" "x" = true := by
  decide

/-- C3 amended: an occurrence is a write iff the trimmed text after the name
starts with `=` — which includes the comparison `==` — or with one of
`+ - * / %` immediately followed by `=` (the heuristic `looksAssignmentTo`
additionally omits `%=`); `<=`, `>=`, `!=` are never writes. A write sets
`isInitialized` and is itself not reported. -/
theorem C3_amended_write_classification :
    ((["=", "+=", "-=", "*=", "/=", "%=", "=="].all fun op =>
        isAssignmentTarget ("x " ++ op ++ " 1") "x" 0) = true)
    ∧ ((["<=", ">=", "!="].all fun op =>
        !isAssignmentTarget ("x " ++ op ++ " 1") "x" 0) = true)
    ∧ ((["=", "+=", "-=", "*=", "/=", "=="].all fun op =>
        looksAssignmentTo ("x " ++ op ++ " 1") "x") = true)
    ∧ ((["<=", ">=", "!=", "%="].all fun op =>
        !looksAssignmentTo ("x " ++ op ++ " 1") "x") = true)
    ∧ (∀ (v : VariableDeclaration) (u : Pos) (dereferences : List Pos)
        (sourceLines : List String) (filePath : String),
        v.isInitialized = false → v.isParameter = false →
        isStructField sourceLines v.row = false →
        isAssignmentTarget (lineAt sourceLines u.row) v.name u.column = true →
        (checkVariableUsage v [u] dereferences sourceLines filePath).filter
            (fun i => i.category == "Uninitialized") = [] ∧
          (scanUsages v sourceLines filePath [u] false).2 =
            (!decide (u.row = v.row) || false)) := by
  refine ⟨by decide, by decide, by decide, by decide, ?_⟩
  intro v u dereferences sourceLines filePath hInit hParam hStruct hw
  constructor
  · unfold checkVariableUsage
    rw [hInit, hParam, hStruct]
    simp only [Bool.or_self, Bool.false_eq_true, if_false]
    rw [List.filter_append, scanUsages_fst]
    have e1 : ([u].filter fun x => !decide (x.row = v.row) &&
        !isAssignmentTarget (lineAt sourceLines x.row) v.name x.column) = [] := by
      simp [hw]
    rw [e1]
    simp only [List.map_nil, List.nil_append]
    apply List.filter_eq_nil_iff.mpr
    intro a ha
    obtain ⟨d, _, heq⟩ := List.mem_filterMap.mp ha
    split at heq
    · exact absurd heq (by simp)
    · split at heq
      · cases heq
        simp [mkWildIssue]
      · exact absurd heq (by simp)
  · rw [scanUsages_snd]
    simp [hw]

/-- C3 witness: the amended classification at a concrete write `x = 1`. -/
theorem C3_amended_witness :
    (checkVariableUsage ⟨"x", false, false, false, 0⟩ [⟨1, 0⟩] []
        ["int x;", "x = 1;"] "w.c").filter (fun i => i.category == "Uninitialized") = [] := by
  have h := (C3_amended_write_classification.2.2.2.2 ⟨"x", false, false, false, 0⟩
    ⟨1, 0⟩ [] ["int x;", "x = 1;"] "w.c" rfl rfl (by decide) (by decide))
  exact h.1

/-- C4 counterexample: the dereference of the never-initialized pointer is
reported, but the emitted issue's category is `"NullPointer"`, not
`"WildPointer"`. -/
theorem C4_counterexample :
    ((checkVariableUsage ⟨"p", true, false, false, 0⟩ [] [⟨1, 0⟩]
        ["int *p;", "*p = 5;"] "c.c").map (fun i => i.category) = ["NullPointer"]) ∧
    (checkVariableUsage ⟨"p", true, false, false, 0⟩ [] [⟨1, 0⟩]
        ["int *p;", "*p = 5;"] "c.c").filter (fun i => i.category == "WildPointer") = [] := by
  decide

/-- C4 amended: for a non-parameter, non-struct-field pointer declaration
without an initializer, after the full usage scan every dereference site away
from the declaration row is reported as a wild-pointer issue carrying category
`"NullPointer"` exactly when the end-of-scan flag is still false, and none is
reported when it is true — only the final flag value matters, not the relative
order of writes and dereferences. -/
theorem C4_wild_deref_uses_final_flag
    (v : VariableDeclaration) (usages dereferences : List Pos)
    (sourceLines : List String) (filePath : String)
    (hInit : v.isInitialized = false) (hParam : v.isParameter = false)
    (hStruct : isStructField sourceLines v.row = false) (hPtr : v.isPointer = true) :
    (checkVariableUsage v usages dereferences sourceLines filePath).filter
        (fun i => i.category == "NullPointer") =
      if usages.any (fun u => !decide (u.row = v.row) &&
          isAssignmentTarget (lineAt sourceLines u.row) v.name u.column) then []
      else (dereferences.filter fun d => !decide (d.row = v.row)).map
        (mkWildIssue filePath v sourceLines) := by
  unfold checkVariableUsage
  rw [hInit, hParam, hStruct]
  simp only [Bool.or_self, Bool.false_eq_true, if_false]
  rw [List.filter_append, scanUsages_fst]
  have huni : ((usages.filter fun u => !decide (u.row = v.row) &&
      !isAssignmentTarget (lineAt sourceLines u.row) v.name u.column).map
      (mkUninitIssue filePath v sourceLines)).filter
      (fun i => i.category == "NullPointer") = [] := by
    apply List.filter_eq_nil_iff.mpr
    intro a ha
    obtain ⟨u, _, rfl⟩ := List.mem_map.mp ha
    simp [mkUninitIssue]
  rw [huni, List.nil_append]
  have hflag : (scanUsages v sourceLines filePath usages false).2 =
      (usages.any fun u => !decide (u.row = v.row) &&
        isAssignmentTarget (lineAt sourceLines u.row) v.name u.column) := by
    rw [scanUsages_snd]
    simp
  by_cases hany : (usages.any fun u => !decide (u.row = v.row) &&
      isAssignmentTarget (lineAt sourceLines u.row) v.name u.column) = true
  · rw [if_pos hany]
    have hnone : (dereferences.filterMap fun d =>
        if d.row = v.row then none
        else if v.isPointer && !(scanUsages v sourceLines filePath usages false).2 then
          some (mkWildIssue filePath v sourceLines d)
        else none) = [] := by
      have : ∀ d : Pos, (if d.row = v.row then none
          else if v.isPointer && !(scanUsages v sourceLines filePath usages false).2 then
            some (mkWildIssue filePath v sourceLines d)
          else none) = (none : Option RawIssue) := by
        intro d
        rw [hflag, hany]
        simp
      simp only [this]
      exact list_filterMap_const_none dereferences
    rw [hnone]
    rfl
  · rw [if_neg hany]
    rw [Bool.not_eq_true] at hany
    have hcond : (v.isPointer && !(scanUsages v sourceLines filePath usages false).2) = true := by
      rw [hflag, hany, hPtr]
      rfl
    have hskip : (dereferences.filterMap fun d =>
        if d.row = v.row then none
        else if v.isPointer && !(scanUsages v sourceLines filePath usages false).2 then
          some (mkWildIssue filePath v sourceLines d)
        else none) =
        (dereferences.filter fun d => !decide (d.row = v.row)).map
          (mkWildIssue filePath v sourceLines) := by
      rw [show (fun d : Pos =>
          if d.row = v.row then none
          else if v.isPointer && !(scanUsages v sourceLines filePath usages false).2 then
            some (mkWildIssue filePath v sourceLines d)
          else none) = fun d : Pos =>
          if d.row = v.row then none else some (mkWildIssue filePath v sourceLines d) by
        funext d
        rw [hcond]
        simp]
      exact list_filterMap_skip dereferences (fun d => d.row = v.row)
        (mkWildIssue filePath v sourceLines)
    rw [hskip]
    apply List.filter_eq_self.mpr
    intro a ha
    obtain ⟨d, _, rfl⟩ := List.mem_map.mp ha
    rfl

/-- C4 witness: a write after the dereference still suppresses the report,
since only the final flag value is consulted; with no write, the dereference
is reported. -/
theorem C4_witness :
    (checkVariableUsage ⟨"p", true, false, false, 0⟩ [⟨2, 0⟩] [⟨1, 1⟩]
        ["int *p;", "*p = 5;", "p = &x;"] "d.c").filter
        (fun i => i.category == "NullPointer") = [] := by
  have h := C4_wild_deref_uses_final_flag ⟨"p", true, false, false, 0⟩ [⟨2, 0⟩] [⟨1, 1⟩]
    ["int *p;", "*p = 5;", "p = &x;"] "d.c" rfl rfl (by decide) rfl
  exact h.trans (by decide)

/-- C7 counterexample: a usage on row 2, strictly before the declaration row 5,
is still considered and produces an Uninitialized issue at line 3. -/
theorem C7_counterexample :
    (checkVariableUsage ⟨"x", false, false, false, 5⟩ [⟨2, 0⟩] []
        ["", "", "x + 1;", "", "", "int x;"] "f.c").map (fun i => (i.line, i.category)) =
      [(3, "Uninitialized")] := by
  decide

/-- C7 amended: the usage and dereference scans of `checkVariableUsage` exclude
only the declaration's own row — occurrences on strictly earlier rows are
considered like any others, reporting issues and setting the flag — while only
`checkNullPointerDereference` restricts itself to strictly later rows. -/
theorem C7_amended_only_own_line_skipped :
    (∀ (v : VariableDeclaration) (usages dereferences : List Pos)
        (sourceLines : List String) (filePath : String) (u : Pos),
      v.isInitialized = false → v.isParameter = false →
      isStructField sourceLines v.row = false →
      u ∈ usages → ¬(u.row = v.row) →
      isAssignmentTarget (lineAt sourceLines u.row) v.name u.column = false →
      mkUninitIssue filePath v sourceLines u ∈
        checkVariableUsage v usages dereferences sourceLines filePath)
    ∧ (∀ (v : VariableDeclaration) (sourceLines : List String) (filePath : String)
        (usages : List Pos) (init : Bool),
      (scanUsages v sourceLines filePath usages init).2 =
        (init || usages.any fun u => !decide (u.row = v.row) &&
          isAssignmentTarget (lineAt sourceLines u.row) v.name u.column))
    ∧ (∀ (p : VariableDeclaration) (derefsOf : String → List Pos)
        (sourceLines : List String) (filePath : String) (i : RawIssue),
      i ∈ checkNullPointerDereference [p] derefsOf sourceLines filePath →
      p.row + 1 < i.line) := by
  refine ⟨?_, ?_, ?_⟩
  · intro v usages dereferences sourceLines filePath u hInit hParam hStruct hu hrow hnw
    unfold checkVariableUsage
    rw [hInit, hParam, hStruct]
    simp only [Bool.or_self, Bool.false_eq_true, if_false]
    apply List.mem_append.mpr
    left
    rw [scanUsages_fst]
    apply List.mem_map.mpr
    refine ⟨u, ?_, rfl⟩
    apply List.mem_filter.mpr
    refine ⟨hu, ?_⟩
    simp [hrow, hnw]
  · intro v sourceLines filePath usages init
    exact scanUsages_snd v sourceLines filePath usages init
  · intro p derefsOf sourceLines filePath i hi
    unfold checkNullPointerDereference at hi
    obtain ⟨q, hq, hiq⟩ := List.mem_flatMap.mp hi
    have hqp : q = p := by
      rcases List.mem_filter.mp hq with ⟨hmem, _⟩
      simpa using hmem
    subst hqp
    obtain ⟨d, _, heq⟩ := List.mem_filterMap.mp hiq
    split at heq
    · cases heq
      simp only [mkNullPointerIssue]
      omega
    · exact absurd heq (by simp)

/-- C7 witness: the first amended conjunct at the concrete earlier-row usage of
the counterexample input. -/
theorem C7_witness :
    mkUninitIssue "f.c" ⟨"x", false, false, false, 5⟩
        ["", "", "x + 1;", "", "", "int x;"] ⟨2, 0⟩ ∈
      checkVariableUsage ⟨"x", false, false, false, 5⟩ [⟨2, 0⟩] []
        ["", "", "x + 1;", "", "", "int x;"] "f.c" := by
  exact C7_amended_only_own_line_skipped.1 ⟨"x", false, false, false, 5⟩ [⟨2, 0⟩] []
    ["", "", "x + 1;", "", "", "int x;"] "f.c" ⟨2, 0⟩ rfl rfl (by decide)
    (by decide) (by decide) (by decide)

theorem suggestLoop_some_spec (lower : List Char) :
    ∀ (L : List String) (w : String) (d : Nat),
      d = levenshteinDistance lower (lowerChars w.data) → d ≤ 2 →
      (suggestLoop lower L (some w, some d)).1 =
        (match listMin (L.map fun x => levenshteinDistance lower (lowerChars x.data)) with
         | none => some w
         | some m =>
           if m < d then L.find? fun x => levenshteinDistance lower (lowerChars x.data) == m
           else some w) := by
  intro L
  induction L with
  | nil => intro w d _ _; rfl
  | cons std rest ih =>
    intro w d hd hd2
    simp only [suggestLoop, List.map_cons, listMin]
    set d0 := levenshteinDistance lower (lowerChars std.data) with hd0
    by_cases h0 : d0 < d ∧ d0 ≤ 2
    · rw [if_pos (by simp only [ltInf, Bool.and_eq_true, decide_eq_true_eq]; exact h0)]
      rw [ih std d0 hd0 h0.2]
      cases hm : listMin (rest.map fun x => levenshteinDistance lower (lowerChars x.data)) with
      | none =>
        dsimp only
        rw [if_pos h0.1]
        rw [List.find?_cons_of_pos _ (by simp [← hd0])]
      | some m =>
        dsimp only
        by_cases hmd : m < d0
        · have hmin : min d0 m = m := by omega
          rw [if_pos hmd, hmin, if_pos (by omega)]
          rw [List.find?_cons_of_neg _ (by simp only [← hd0, beq_iff_eq]; omega)]
        · have hmin : min d0 m = d0 := by omega
          rw [if_neg hmd, hmin, if_pos h0.1]
          rw [List.find?_cons_of_pos _ (by simp [← hd0])]
    · rw [if_neg (by simp only [ltInf, Bool.and_eq_true, decide_eq_true_eq]; exact h0)]
      have hge : d ≤ d0 := by
        rcases Nat.lt_or_ge d0 d with hlt | hge2
        · exact absurd ⟨hlt, by omega⟩ h0
        · exact hge2
      rw [ih w d hd hd2]
      cases hm : listMin (rest.map fun x => levenshteinDistance lower (lowerChars x.data)) with
      | none =>
        dsimp only
        rw [if_neg (by omega)]
      | some m =>
        dsimp only
        by_cases hmd : m < d
        · have hmin : min d0 m = m := by omega
          rw [if_pos hmd, hmin, if_pos hmd]
          rw [List.find?_cons_of_neg _ (by simp only [← hd0, beq_iff_eq]; omega)]
        · have hmin : ¬(min d0 m < d) := by omega
          rw [if_neg hmd, if_neg hmin]

theorem suggestLoop_none_spec (lower : List Char) :
    ∀ L : List String,
      (suggestLoop lower L (none, none)).1 =
        (match listMin (L.map fun x => levenshteinDistance lower (lowerChars x.data)) with
         | none => none
         | some m =>
           if m ≤ 2 then L.find? fun x => levenshteinDistance lower (lowerChars x.data) == m
           else none) := by
  intro L
  induction L with
  | nil => rfl
  | cons std rest ih =>
    simp only [suggestLoop, List.map_cons, listMin]
    set d0 := levenshteinDistance lower (lowerChars std.data) with hd0
    by_cases h0 : d0 ≤ 2
    · rw [if_pos (by simp only [ltInf, Bool.true_and, decide_eq_true_eq]; exact h0)]
      rw [suggestLoop_some_spec lower rest std d0 hd0 h0]
      cases hm : listMin (rest.map fun x => levenshteinDistance lower (lowerChars x.data)) with
      | none =>
        dsimp only
        rw [if_pos h0]
        rw [List.find?_cons_of_pos _ (by simp [← hd0])]
      | some m =>
        dsimp only
        by_cases hmd : m < d0
        · have hmin : min d0 m = m := by omega
          rw [if_pos hmd, hmin, if_pos (by omega)]
          rw [List.find?_cons_of_neg _ (by simp only [← hd0, beq_iff_eq]; omega)]
        · have hmin : min d0 m = d0 := by omega
          rw [if_neg hmd, hmin, if_pos h0]
          rw [List.find?_cons_of_pos _ (by simp [← hd0])]
    · rw [if_neg (by simp only [ltInf, Bool.true_and, decide_eq_true_eq]; exact h0)]
      rw [ih]
      cases hm : listMin (rest.map fun x => levenshteinDistance lower (lowerChars x.data)) with
      | none =>
        dsimp only
        rw [if_neg (by omega)]
      | some m =>
        dsimp only
        by_cases hm2 : m ≤ 2
        · have hmin : min d0 m = m := by omega
          rw [if_pos hm2, hmin, if_pos hm2]
          rw [List.find?_cons_of_neg _ (by simp only [← hd0, beq_iff_eq]; omega)]
        · have hmin : ¬(min d0 m ≤ 2) := by omega
          rw [if_neg hm2, if_neg hmin]

/-- C5: a call to a tabulated function with none of its acceptable headers
included yields exactly one Header issue naming all acceptable headers, and
none when an acceptable header is included; the analysis distributes over the
call list and ignores whether each include is a system or quoted one. -/
theorem C5_missing_header_per_call :
    (∀ (filePath : String) (sourceLines : List String) (includes : List IncludeDirective)
        (c : FunctionCall) (req : List String),
      lookupStdFunction c.name = some req →
      ((req.any fun h => (includes.map (·.headerName)).contains h) = false →
        libraryAnalyzeFile filePath sourceLines includes [c] =
          [mkHeaderIssue filePath sourceLines c req]) ∧
      ((req.any fun h => (includes.map (·.headerName)).contains h) = true →
        libraryAnalyzeFile filePath sourceLines includes [c] = []))
    ∧ (∀ filePath sourceLines includes (calls₁ calls₂ : List FunctionCall),
        libraryAnalyzeFile filePath sourceLines includes (calls₁ ++ calls₂) =
          libraryAnalyzeFile filePath sourceLines includes calls₁ ++
            libraryAnalyzeFile filePath sourceLines includes calls₂)
    ∧ (∀ filePath sourceLines (includes : List IncludeDirective) calls
        (b : IncludeDirective → Bool),
        libraryAnalyzeFile filePath sourceLines
          (includes.map fun i => ⟨i.headerName, b i, i.row, i.column⟩) calls =
          libraryAnalyzeFile filePath sourceLines includes calls) := by
  refine ⟨?_, ?_, ?_⟩
  · intro filePath sourceLines includes c req hlook
    constructor
    · intro hnone
      unfold libraryAnalyzeFile
      simp only [List.filterMap_cons, List.filterMap_nil, hlook, hnone]
      simp
    · intro hsome
      unfold libraryAnalyzeFile
      simp only [List.filterMap_cons, List.filterMap_nil, hlook, hsome]
      simp
  · intro filePath sourceLines includes calls₁ calls₂
    exact List.filterMap_append calls₁ calls₂ _
  · intro filePath sourceLines includes calls b
    unfold libraryAnalyzeFile
    rw [List.map_map]
    rfl

/-- C5 witness: a `printf` call with no includes yields the stdio.h Header
issue; with a quoted `stdio.h` include it yields nothing. -/
theorem C5_witness :
    libraryAnalyzeFile "m.c" ["printf(1);"] [] [⟨"printf", 0, 0⟩] =
      [mkHeaderIssue "m.c" ["printf(1);"] ⟨"printf", 0, 0⟩ ["stdio.h"]] ∧
    libraryAnalyzeFile "m.c" ["printf(1);"] [⟨"stdio.h", false, 0, 0⟩] [⟨"printf", 0, 0⟩] =
      [] := by
  constructor
  · exact (C5_missing_header_per_call.1 "m.c" ["printf(1);"] [] ⟨"printf", 0, 0⟩
      ["stdio.h"] (by decide)).1 (by decide)
  · exact (C5_missing_header_per_call.1 "m.c" ["printf(1);"] [⟨"stdio.h", false, 0, 0⟩]
      ⟨"printf", 0, 0⟩ ["stdio.h"] (by decide)).2 (by decide)

/-- C6 counterexample: for `#include <STDIO.H>` no whitelist entry is within
Levenshtein distance 2 of the header name itself, yet the emitted issue does
carry the suggestion `stdio.h` (the distances are computed on lowercased
names). -/
theorem C6_counterexample :
    suggestCorrectHeader "STDIO.H" = some "stdio.h" ∧
    (standardHeaders.all fun w => decide (2 < levenshteinDistance "STDIO.H".data w.data)) = true ∧
    checkHeaderSpelling "f.c" [] [⟨"STDIO.H", true, 0, 0⟩] =
      [⟨"f.c", 1, 0, "HeaderSpelling",
        "可疑的头文件名: STDIO.H，您是否想要 stdio.h？", 2, ""⟩] := by
  refine ⟨by decide, by decide, by decide⟩

/-- C6 amended: only non-whitelisted system includes are reported, each with
one issue, and the suggestion is the first whitelist entry (in enumeration
order) at minimum Levenshtein distance between the lowercased header name and
the lowercased entry, provided that minimum is at most 2; otherwise there is
no suggestion. -/
theorem C6_amended_first_minimum_suggestion :
    (∀ (filePath : String) (sourceLines : List String) (includes : List IncludeDirective),
      checkHeaderSpelling filePath sourceLines includes =
        (includes.filter fun inc =>
          inc.isSystemHeader && !(standardHeaders.contains inc.headerName)).map
          (mkSpellingIssue filePath sourceLines))
    ∧ (∀ headerName : String,
        suggestCorrectHeader headerName = specSuggestion headerName standardHeaders) := by
  constructor
  · intro filePath sourceLines includes
    exact list_filterMap_bguard includes _ _
  · intro headerName
    unfold suggestCorrectHeader specSuggestion lowerDistance
    rw [suggestLoop_none_spec]

/-- C10: whitelist membership is case-sensitive (any non-member system include
is reported), while the suggestion computation is case-insensitive (it depends
only on the lowercased name); for `#include <STDIO.H>` an issue is emitted
whose suggestion is `stdio.h`, the lowercased distance being 0. -/
theorem C10_membership_case_sensitive_suggestion_not :
    (∀ (filePath : String) (sourceLines : List String) (h : String) (r c : Nat),
      standardHeaders.contains h = false →
      checkHeaderSpelling filePath sourceLines [⟨h, true, r, c⟩] =
        [mkSpellingIssue filePath sourceLines ⟨h, true, r, c⟩])
    ∧ (∀ h₁ h₂ : String, lowerChars h₁.data = lowerChars h₂.data →
        suggestCorrectHeader h₁ = suggestCorrectHeader h₂)
    ∧ checkHeaderSpelling "t.c" [] [⟨"STDIO.H", true, 3, 1⟩] =
        [⟨"t.c", 4, 1, "HeaderSpelling",
          "可疑的头文件名: STDIO.H，您是否想要 stdio.h？", 2, ""⟩]
    ∧ levenshteinDistance (lowerChars "STDIO.H".data) (lowerChars "stdio.h".data) = 0 := by
  refine ⟨?_, ?_, by decide, by decide⟩
  · intro filePath sourceLines h r c hcont
    have hmem : h ∉ standardHeaders := by simpa using hcont
    simp [checkHeaderSpelling, hmem]
  · intro h₁ h₂ hl
    unfold suggestCorrectHeader
    rw [hl]

/-- C10 witness: the membership conjunct applied to the uppercase header. -/
theorem C10_witness :
    checkHeaderSpelling "w.c" ["#include <STDIO.H>"] [⟨"STDIO.H", true, 0, 10⟩] =
      [mkSpellingIssue "w.c" ["#include <STDIO.H>"] ⟨"STDIO.H", true, 0, 10⟩] :=
  C10_membership_case_sensitive_suggestion_not.1 "w.c" ["#include <STDIO.H>"]
    "STDIO.H" 0 10 (by decide)

theorem scanfAmpIssues_message (filePath raw : String) (lineIdx : Nat)
    (getVar : String → Option VariableInfo) (args : List String) :
    ∀ i ∈ scanfAmpIssues filePath raw lineIdx getVar args, i.message = ampMsg := by
  intro i hi
  obtain ⟨e, _, heq⟩ := List.mem_filterMap.mp hi
  simp only [scanfAmpIssues] at heq
  split at heq
  · exact absurd heq (by simp)
  · split at heq
    · exact absurd heq (by simp)
    · split at heq
      · split at heq
        · exact absurd heq (by simp)
        · cases heq; rfl
      · cases heq; rfl

/-- C8: for a printf/scanf call line with at least a format argument, the
count-mismatch Format issues are exactly one "too few" when the supplied
arguments are fewer than the `%` specifiers (with `%%` counted as a literal),
exactly one "too many" when more, and none when equal; in particular
`printf("%d %d", x);` yields exactly one "too few" issue. -/
theorem C8_format_count_mismatch :
    (∀ (filePath raw line : String) (lineIdx : Nat) (getVar : String → Option VariableInfo),
      hasPrintfScanfCall line = true →
      1 ≤ (getArgsFromCall line).length →
      ((formatCheckLine filePath raw line lineIdx getVar).filter fun i =>
          i.message == fmtMsgFew (hasScanfCall line) ||
          i.message == fmtMsgMany (hasScanfCall line)) =
        (if (getArgsFromCall line).length - 1 < fmtSpecOfLine line then
          [⟨filePath, lineIdx + 1, "Format", fmtMsgFew (hasScanfCall line), raw⟩] else []) ++
        (if fmtSpecOfLine line < (getArgsFromCall line).length - 1 then
          [⟨filePath, lineIdx + 1, "Format", fmtMsgMany (hasScanfCall line), raw⟩] else []))
    ∧ formatSpecCount "%d%%%s" = 2
    ∧ formatSpecCount "%%" = 0
    ∧ formatCheckLine "t.c" "printf(\"%d %d\", x);" "printf(\"%d %d\", x);" 1
        (fun _ => none) =
      [⟨"t.c", 2, "Format", "printf 参数少于格式化占位数", "printf(\"%d %d\", x);"⟩] := by
  refine ⟨?_, by decide, by decide, by decide⟩
  intro filePath raw line lineIdx getVar hcall hargs
  have hfewmsg : ∀ b : Bool,
      (fmtMsgFew b == fmtMsgFew b || fmtMsgFew b == fmtMsgMany b) = true := by
    decide
  have hmanymsg : ∀ b : Bool,
      (fmtMsgMany b == fmtMsgFew b || fmtMsgMany b == fmtMsgMany b) = true := by
    decide
  have hampmsg : ∀ b : Bool,
      (ampMsg == fmtMsgFew b || ampMsg == fmtMsgMany b) = false := by
    decide
  have hA : ((if (getArgsFromCall line).length - 1 < fmtSpecOfLine line then
      [(⟨filePath, lineIdx + 1, "Format", fmtMsgFew (hasScanfCall line), raw⟩ : HIssue)]
      else []).filter fun i =>
        i.message == fmtMsgFew (hasScanfCall line) ||
        i.message == fmtMsgMany (hasScanfCall line)) =
      (if (getArgsFromCall line).length - 1 < fmtSpecOfLine line then
        [⟨filePath, lineIdx + 1, "Format", fmtMsgFew (hasScanfCall line), raw⟩] else []) := by
    split
    · simp [hfewmsg (hasScanfCall line)]
    · rfl
  have hB : ((if fmtSpecOfLine line < (getArgsFromCall line).length - 1 then
      [(⟨filePath, lineIdx + 1, "Format", fmtMsgMany (hasScanfCall line), raw⟩ : HIssue)]
      else []).filter fun i =>
        i.message == fmtMsgFew (hasScanfCall line) ||
        i.message == fmtMsgMany (hasScanfCall line)) =
      (if fmtSpecOfLine line < (getArgsFromCall line).length - 1 then
        [⟨filePath, lineIdx + 1, "Format", fmtMsgMany (hasScanfCall line), raw⟩] else []) := by
    split
    · simp [hmanymsg (hasScanfCall line)]
    · rfl
  have hC : ((if hasScanfCall line then
      scanfAmpIssues filePath raw lineIdx getVar (getArgsFromCall line) else []).filter fun i =>
        i.message == fmtMsgFew (hasScanfCall line) ||
        i.message == fmtMsgMany (hasScanfCall line)) = [] := by
    split
    · apply List.filter_eq_nil_iff.mpr
      intro a ha
      rw [scanfAmpIssues_message filePath raw lineIdx getVar (getArgsFromCall line) a ha]
      simp [hampmsg (hasScanfCall line)]
    · rfl
  unfold formatCheckLine
  rw [if_pos hcall, if_pos hargs]
  rw [List.filter_append, List.filter_append]
  have hspec : (match fmtCapture ((getArgsFromCall line).headD "").data with
      | some cap => formatSpecCountChars cap
      | none => 0) = fmtSpecOfLine line := rfl
  rw [hspec, hA, hB, hC, List.append_nil]

/-- C8 witness: the general count-mismatch characterization applied to the
scenario line `printf("%d %d", x);`. -/
theorem C8_witness :
    ((formatCheckLine "t.c" "printf(\"%d %d\", x);" "printf(\"%d %d\", x);" 1
        (fun _ => none)).filter fun i =>
        i.message == fmtMsgFew (hasScanfCall "printf(\"%d %d\", x);") ||
        i.message == fmtMsgMany (hasScanfCall "printf(\"%d %d\", x);")) =
      [⟨"t.c", 2, "Format", fmtMsgFew (hasScanfCall "printf(\"%d %d\", x);"),
        "printf(\"%d %d\", x);"⟩] := by
  have h := C8_format_count_mismatch.1 "t.c" "printf(\"%d %d\", x);"
    "printf(\"%d %d\", x);" 1 (fun _ => none) (by decide) (by decide)
  exact h.trans (by decide)

/-- C9 counterexample: a file named `my_avl_tree.c` — a different file from
`avl_tree.c` — also has its line-7 issue suppressed, because the filter tests
`file.includes('avl_tree.c')` as a substring of the path. -/
theorem C9_counterexample :
    filterKnownFalsePositives
      [⟨"tests/my_avl_tree.c", 7, "Uninitialized", "m", "int x;"⟩] = [] := by
  decide

/-- C9 amended: issues of any file whose path contains the substring
`avl_tree.c` at lines 7, 8 or 16 are suppressed; every other issue is printed
unchanged, in its original order. -/
theorem C9_amended_substring_suppression :
    (∀ issues : List HIssue, List.Sublist (filterKnownFalsePositives issues) issues)
    ∧ (∀ (issues : List HIssue) (i : HIssue), i ∈ issues →
        strContains i.file "avl_tree.c" = true → (i.line = 7 ∨ i.line = 8 ∨ i.line = 16) →
        i ∉ filterKnownFalsePositives issues)
    ∧ (∀ (issues : List HIssue) (i : HIssue), i ∈ issues →
        strContains i.file "avl_tree.c" = false → i ∈ filterKnownFalsePositives issues)
    ∧ (∀ (issues : List HIssue) (i : HIssue), i ∈ issues →
        ¬(i.line = 7 ∨ i.line = 8 ∨ i.line = 16) → i ∈ filterKnownFalsePositives issues) := by
  refine ⟨?_, ?_, ?_, ?_⟩
  · intro issues
    exact List.filter_sublist issues
  · intro issues i _ hfile hline hmem
    rcases List.mem_filter.mp hmem with ⟨_, hp⟩
    rcases hline with h7 | h8 | h16
    · simp [hfile, h7] at hp
    · simp [hfile, h8] at hp
    · simp [hfile, h16] at hp
  · intro issues i hi hfile
    exact List.mem_filter.mpr ⟨hi, by simp [hfile]⟩
  · intro issues i hi hline
    apply List.mem_filter.mpr
    refine ⟨hi, ?_⟩
    have h7 : ¬i.line = 7 := fun h => hline (Or.inl h)
    have h8 : ¬i.line = 8 := fun h => hline (Or.inr (Or.inl h))
    have h16 : ¬i.line = 16 := fun h => hline (Or.inr (Or.inr h))
    simp [h7, h8, h16]

/-- C9 witness: the suppression conjunct at a concrete `avl_tree.c` issue. -/
theorem C9_witness :
    (⟨"a/avl_tree.c", 7, "Uninitialized", "m", "int x;"⟩ : HIssue) ∉
      filterKnownFalsePositives [⟨"a/avl_tree.c", 7, "Uninitialized", "m", "int x;"⟩] :=
  C9_amended_substring_suppression.2.1 [⟨"a/avl_tree.c", 7, "Uninitialized", "m", "int x;"⟩]
    ⟨"a/avl_tree.c", 7, "Uninitialized", "m", "int x;"⟩ (by simp) (by decide) (Or.inl rfl)
